import Mathlib

/-!
Verification of the `marked` in-memory document tree and structural-filter
engine (vdom) and of the `LazyArc` lazily-initialized singleton.

The repository sources available are `src/src/vdom/tests.rs` (the vdom test
suite), `src/src/macros.rs` (the `chain_filters` composition macro) and
`src/victor/src/lazy_arc/mod.rs` (the `LazyArc` singleton).  The vdom
implementation itself (module `vdom`: `Document`, `Node`, the filter engine,
the serializer, queries and `deep_clone`) is not among the sources, so those
operations are modelled from the specification (`spec.md` sections 3 to 4.5)
and pinned by the expected strings of the test suite.

The tree is embedded as a rose tree: the spec's `parent` / `first_child` /
`last_child` / `prev_sibling` / `next_sibling` integer links encode exactly
an ordered forest, and every claim under verification is about the ordered
tree structure, not about the link fields themselves.  The document sentinel
(node 0, variant `DocumentRoot`) is represented by the `Document` structure
owning the sentinel's ordered child list.
-/

namespace Marked

/-- Modelled from the spec (§3): a qualified name is a namespace URI plus a
local name (the optional namespace mark on names is immaterial to every
claim and is omitted). -/
structure QualName where
  ns : String
  localName : String

/-- Modelled from the spec (§3): an attribute is a qualified name and a
character-buffer value. -/
structure Attribute where
  name : QualName
  value : String

/-- Modelled from the spec (§3): element payload, a name plus the ordered
attribute sequence (insertion order preserved). -/
structure ElementData where
  name : QualName
  attrs : List Attribute

/-- Modelled from the spec (§3): a tree node with its variant payload.  The
missing `vdom` module's `Node` carries arena link fields; here a node is the
root of its (ordered) subtree, and the `DocumentRoot` sentinel variant is
represented by `Document` itself. -/
inductive Node where
  | element (data : ElementData) (children : List Node)
  | text (value : String)
  | comment (value : String)
  | doctype (name : String)
  | pinstr (data : String)

/-- Modelled from the spec (§3, §4.1): the arena `Document`; node 0 is a
permanent `DocumentRoot` sentinel, so the document is given by the sentinel's
ordered child list. -/
structure Document where
  rootChildren : List Node

/-- Convenience constructor for an element node in the html namespace. -/
def el (tag : String) (attrs : List (String × String)) (cs : List Node) : Node :=
  Node.element ⟨⟨"", tag⟩, attrs.map (fun p => ⟨⟨"", p.1⟩, p.2⟩)⟩ cs

/-- Convenience constructor for a text node. -/
def txt (s : String) : Node :=
  Node.text s

/-- The ordered child list of a node (non-element nodes have none). -/
def Node.children : Node → List Node
  | .element _ cs => cs
  | _ => []

/-- Replace the child list of an element node (identity on other variants). -/
def Node.withChildren : Node → List Node → Node
  | .element d _, cs => .element d cs
  | other, _ => other

/-- Modelled from the spec (§4.2): `is_element_named` / `is_elem`, true iff
the node is an element with the given local name. -/
def Node.is_elem (n : Node) (tag : String) : Bool :=
  match n with
  | .element d _ => d.name.localName == tag
  | _ => false

/-- True iff the node is an element. -/
def Node.isElement : Node → Bool
  | .element _ _ => true
  | _ => false

mutual
/-- Number of nodes in the subtree rooted at a node (the node included). -/
def Node.size : Node → Nat
  | .element _ cs => 1 + sizeList cs
  | _ => 1
/-- Total number of nodes in a forest. -/
def sizeList : List Node → Nat
  | [] => 0
  | c :: cs => c.size + sizeList cs
end

/-- Live node count of the document, the sentinel included, mirroring
`doc.nodes().count()`. -/
def Document.nodesCount (doc : Document) : Nat :=
  1 + sizeList doc.rootChildren

/-- Modelled from the spec (§4.1): `root_element`, the single Element child
of the sentinel, if any. -/
def Document.root_element (doc : Document) : Option Node :=
  doc.rootChildren.find? Node.isElement

/-! ## Serializer (spec §4.5) -/

/-- Modelled from the spec (§4.5, standard markup conventions): tags that
are serialized as a start tag only, with no closing tag. -/
def voidElements : List String :=
  ["area", "base", "basefont", "bgsound", "br", "col", "embed", "frame",
   "hr", "img", "input", "keygen", "link", "meta", "param", "source",
   "track", "wbr"]

/-- Modelled from the spec (§4.5, glossary): raw-text elements, whose
content is not parsed as nested markup and is serialized unescaped. -/
def rawTextElements : List String :=
  ["style", "script", "xmp", "iframe", "noembed", "noframes", "plaintext"]

/-- Modelled from the spec (§4.5): minimal text escaping, `<`, `&` and the
non-breaking space. -/
def escapeTextChar : Char → String
  | '&' => "&amp;"
  | ' ' => "&nbsp;"
  | '<' => "&lt;"
  | c => String.singleton c

/-- Escape a text node's value for output. -/
def escapeText (s : String) : String :=
  String.join (s.data.map escapeTextChar)

/-- Modelled from the spec (§4.5): attribute-value escaping, `&`, the
non-breaking space and the double quote. -/
def escapeAttrChar : Char → String
  | '&' => "&amp;"
  | ' ' => "&nbsp;"
  | '"' => "&quot;"
  | c => String.singleton c

/-- Escape an attribute value for output. -/
def escapeAttrValue (s : String) : String :=
  String.join (s.data.map escapeAttrChar)

/-- Render an attribute list, each attribute as ` name="value"`. -/
def attrsToString : List Attribute → String
  | [] => ""
  | a :: rest =>
    " " ++ a.name.localName ++ "=\"" ++ escapeAttrValue a.value ++ "\"" ++ attrsToString rest

mutual
/-- Modelled from the spec (§4.5): render one node; `raw` is true inside a
raw-text element, where text is emitted unescaped.  Every non-void element,
raw-text elements included, gets an explicit closing tag. -/
def nodeToString (raw : Bool) : Node → String
  | .element d cs =>
    let tag := d.name.localName
    if voidElements.contains tag then
      "<" ++ tag ++ attrsToString d.attrs ++ ">"
    else
      "<" ++ tag ++ attrsToString d.attrs ++ ">" ++
        nodesToString (rawTextElements.contains tag) cs ++ "</" ++ tag ++ ">"
  | .text s => if raw then s else escapeText s
  | .comment s => "<!--" ++ s ++ "-->"
  | .doctype name => "<!DOCTYPE " ++ name ++ ">"
  | .pinstr s => "<?" ++ s ++ ">"
/-- Render a forest in document order. -/
def nodesToString (raw : Bool) : List Node → String
  | [] => ""
  | n :: rest => nodeToString raw n ++ nodesToString raw rest
end

/-- Modelled from the spec (§4.1, §4.5): `Document::to_string`, the
serialization of the whole document. -/
def Document.to_string (doc : Document) : String :=
  nodesToString false doc.rootChildren

/-! ## Filter / Action engine (spec §4.3) -/

/-- Modelled from the spec (§4.3): the outcome of applying a filter to one
node. -/
inductive Action where
  | Continue
  | Detach
  | Fold
deriving DecidableEq, Repr

/-- A `TreeFilter` capability: `filter(node) -> Action`. -/
abbrev TreeFilter := Node → Action

/-- Modelled from the spec (§4.3): the single-pass mutating pre-order walk
over a sibling list.  `Continue` keeps the node and recurses into its
children; `Detach` drops the whole subtree and moves to the next sibling;
`Fold` splices the node's children in its place, the promoted children
remaining subject to this same pass.  The `fuel` argument is only a
termination device: `sizeList ns` steps always suffice (the walk consumes at
least one node per step), and the out-of-fuel branch is never reached when
the engine is entered through `Document.filter`. -/
def filterNodes : Nat → TreeFilter → List Node → List Node
  | 0, _, ns => ns
  | _ + 1, _, [] => []
  | fuel + 1, f, n :: rest =>
    match f n with
    | .Detach => filterNodes fuel f rest
    | .Fold => filterNodes fuel f (n.children ++ rest)
    | .Continue =>
      n.withChildren (filterNodes fuel f n.children) :: filterNodes fuel f rest

/-- Modelled from the spec (§4.3): `Document::filter`, one pre-order walk
starting at each child of the sentinel root. -/
def Document.filter (doc : Document) (f : TreeFilter) : Document :=
  ⟨filterNodes (sizeList doc.rootChildren) f doc.rootChildren⟩

/-- Modelled from the spec (§4.3): `FilterChain`, an ordered sequence of
sub-filters; the chain runs them in order and stops at the first result
other than `Continue`. -/
def FilterChain.filter : List TreeFilter → Node → Action
  | [], _ => .Continue
  | f :: rest, node =>
    match f node with
    | .Continue => FilterChain.filter rest node
    | a => a

/-- Embedded from `src/src/macros.rs` (`chain_filters`): the composed
closure evaluates `first`, then each subsequent sub-filter in order, but a
sub-filter runs only while the accumulated action is still `Continue`. -/
def chain_filters (first : TreeFilter) (subs : List TreeFilter) (node : Node) : Action :=
  subs.foldl (fun action sub => if action = .Continue then sub node else action) (first node)

/-- Embedded from `src/src/vdom/tests.rs` (`StrikeRemoveFilter`): `Detach`
on `strike` elements, `Continue` otherwise. -/
def StrikeRemoveFilter (node : Node) : Action :=
  if node.is_elem "strike" then .Detach else .Continue

/-- Embedded from `src/src/vdom/tests.rs` (`StrikeFoldFilter`): `Fold` on
`strike` elements, `Continue` otherwise. -/
def StrikeFoldFilter (node : Node) : Action :=
  if node.is_elem "strike" then .Fold else .Continue

/-! ## Query operations (spec §4.2) -/

mutual
/-- Modelled from the spec (§4.2): the descendants of a node, self
excluded, in pre-order; recursion continues into matched children. -/
def descendants : Node → List Node
  | .element _ cs => descendantsList cs
  | _ => []
/-- Pre-order listing of a forest: each root followed by its descendants. -/
def descendantsList : List Node → List Node
  | [] => []
  | c :: cs => c :: descendants c ++ descendantsList cs
end

/-- Modelled from the spec (§4.2): the shallow query `filter(predicate)`,
which examines only the direct children of the node, in sibling order. -/
def Node.filter (n : Node) (p : Node → Bool) : List Node :=
  n.children.filter p

/-- Modelled from the spec (§4.2): the recursive query `filter_r(predicate)`,
pre-order over all descendants; a match does not prune its own subtree. -/
def Node.filter_r (n : Node) (p : Node → Bool) : List Node :=
  (descendants n).filter p

/-! ## Deep clone (spec §4.4) -/

mutual
/-- Modelled from the spec (§4.4): the structural copy of a subtree; every
node is copied recursively, order preserved, character buffers shared by
value. -/
def Node.deep_clone : Node → Node
  | .element d cs => .element d (deepCloneList cs)
  | .text s => .text s
  | .comment s => .comment s
  | .doctype s => .doctype s
  | .pinstr s => .pinstr s
/-- Structural copy of a forest, order preserved. -/
def deepCloneList : List Node → List Node
  | [] => []
  | c :: cs => c.deep_clone :: deepCloneList cs
end

/-- Modelled from the spec (§4.4): `Document::deep_clone(start)` builds a
brand-new document whose sentinel's child is a full structural copy of the
subtree rooted at `start`. -/
def Document.deep_clone (_doc : Document) (start : Node) : Document :=
  ⟨[start.deep_clone]⟩

/-! ## Modelled parse results

The markup tokenizer / tree-construction algorithm is an external
collaborator (spec §1, out of scope), so the documents the claims parse are
modelled as the concrete trees the spec and the pinned test strings
describe: `parse` builds the `html > head, body` skeleton (spec §4.1), raw
text elements keep their content as a single text child, `parse_fragment`
yields the fragment container with the parsed body content. -/

/-- Modelled from the spec (§4.1, §8): the full-document parse of
`<div>foo <strike><i>bar</i>s</strike> baz</div>` as used by
`test_fold_filter` and `test_remove_filter`. -/
def strikeDoc : Document :=
  ⟨[el "html" []
      [el "head" [] [],
       el "body" []
         [el "div" []
            [txt "foo ",
             el "strike" [] [el "i" [] [txt "bar"], txt "s"],
             txt " baz"]]]]⟩

/-- Modelled from the spec (§8): the fragment parse of `plain &lt; text`
as used by `test_text_fragment`; the in-memory text value holds the decoded
characters. -/
def textFragmentDoc : Document :=
  ⟨[el "div" [] [txt "plain < text"]]⟩

/-- Modelled from the spec (§4.5, glossary): the fragment parse of
`<div><plaintext><i>bar baz</div>` as used by `test_plaintext`; the
raw-text `plaintext` content runs to end of input unparsed. -/
def plaintextDoc : Document :=
  ⟨[el "div" [] [el "plaintext" [] [txt "<i>bar baz</div>"]]]⟩

/-- Modelled from the spec (§4.5, glossary): the root element of the
fragment parse of `<div>foo <xmp><i>bar</i></xmp> baz</div>` as used by
`test_xmp`; the raw-text `xmp` content is a single unparsed text child. -/
def xmpRoot : Node :=
  el "div" [] [txt "foo ", el "xmp" [] [txt "<i>bar</i>"], txt " baz"]

/-- The fragment document of `test_xmp`. -/
def xmpDoc : Document :=
  ⟨[xmpRoot]⟩

/-- Modelled from the spec (§4.5): the root element of the fragment parse
of `plain<wbr>text` as used by `test_empty_tag`; `wbr` is a void element. -/
def wbrRoot : Node :=
  el "div" [] [txt "plain", el "wbr" [] [], txt "text"]

/-- The fragment document of `test_empty_tag`. -/
def wbrDoc : Document :=
  ⟨[wbrRoot]⟩

/-- Modelled from the spec (§4.1): the root element of the fragment parse
of `<b>b</b> text <i>i</i>` as used by `test_shallow_fragment`; the
fragment container `div` holds the parsed body content. -/
def shallowRoot : Node :=
  el "div" [] [el "b" [] [txt "b"], txt " text ", el "i" [] [txt "i"]]

/-- The fragment document of `test_shallow_fragment`. -/
def shallowDoc : Document :=
  ⟨[shallowRoot]⟩

/-! ## LazyArc (src/victor/src/lazy_arc/mod.rs)

Embedded from the source.  The `AtomicUsize` pointer is `none` when it holds
0 (uninitialized) and `some v` when it holds a raw `Arc` pointer to the
singleton value `v`.  The `RawMutex` only serializes concurrent
initializers; in this single-threaded model the lock and the second
`try_load!` re-check collapse into the single `match` on the pointer.  The
third component of the result records whether the `create` initializer was
invoked. -/

/-- Embedded from `src/victor/src/lazy_arc/mod.rs`: the `LazyArc<T>` state,
reduced to its atomic pointer (0 becomes `none`). -/
structure LazyArc (T : Type) where
  ptr : Option T

/-- Embedded from `src/victor/src/lazy_arc/mod.rs` (`get_or_create`):
if the pointer is set, return that same shared value without running the
initializer; otherwise run the initializer, and on success store and return
the value, while on error propagate the error before anything is stored.
Returns (result, state after the call, whether the initializer ran). -/
def LazyArc.get_or_create {T E : Type} (s : LazyArc T) (create : Unit → Except E T) :
    Except E T × LazyArc T × Bool :=
  match s.ptr with
  | some v => (Except.ok v, s, false)
  | none =>
    match create () with
    | Except.ok v => (Except.ok v, ⟨some v⟩, true)
    | Except.error e => (Except.error e, ⟨none⟩, true)

/-- Embedded from `src/victor/src/lazy_arc/mod.rs` (`drop`): swap the
pointer to 0, deinitializing the singleton. -/
def LazyArc.drop {T : Type} (_s : LazyArc T) : LazyArc T :=
  ⟨none⟩

/-! ## Concrete filters and initializers used by witnesses -/

/-- A sub-filter returning `Continue` on every node. -/
def keepAll : TreeFilter := fun _ => Action.Continue

/-- A sub-filter returning `Detach` on every node. -/
def detachAll : TreeFilter := fun _ => Action.Detach

/-- A sub-filter returning `Fold` on every node. -/
def foldAll : TreeFilter := fun _ => Action.Fold

/-- A predicate matching `xmp` elements. -/
def isXmp : Node → Bool := fun n => n.is_elem "xmp"

/-- An initializer that always fails. -/
def failInit : Unit → Except String Nat := fun _ => Except.error "boom"

end Marked

namespace Marked

/-! ## Helper lemmas -/

mutual
/-- `deep_clone` is a structural copy: extensionally the identity. -/
theorem Node.deep_clone_eq : ∀ (n : Node), n.deep_clone = n
  | .element d cs => by
    show Node.element d (deepCloneList cs) = Node.element d cs
    rw [deepCloneList_eq cs]
  | .text s => rfl
  | .comment s => rfl
  | .doctype s => rfl
  | .pinstr s => rfl
/-- `deepCloneList` is extensionally the identity. -/
theorem deepCloneList_eq : ∀ (ns : List Node), deepCloneList ns = ns
  | [] => rfl
  | c :: cs => by
    show c.deep_clone :: deepCloneList cs = c :: cs
    rw [Node.deep_clone_eq c, deepCloneList_eq cs]
end

/-- Every member of a forest appears in its pre-order descendant listing. -/
theorem mem_descendantsList_of_mem {cs : List Node} {x : Node} (h : x ∈ cs) :
    x ∈ descendantsList cs := by
  induction cs with
  | nil => cases h
  | cons c cs ih =>
    rw [descendantsList]
    rcases List.mem_cons.mp h with h' | h'
    · exact h' ▸ List.mem_cons_self _ _
    · exact List.mem_cons_of_mem _ (List.mem_append_right _ (ih h'))

/-- The direct children of a node are among its descendants. -/
theorem children_subset_descendants (n : Node) {x : Node} (h : x ∈ n.children) :
    x ∈ descendants n := by
  cases n with
  | element d cs => exact mem_descendantsList_of_mem h
  | text s => cases h
  | comment s => cases h
  | doctype s => cases h
  | pinstr s => cases h

/-- A chain prefixed by sub-filters that all return `Continue` behaves as
the rest of the chain. -/
theorem FilterChain.filter_append (fs₁ fs₂ : List TreeFilter) (n : Node)
    (h : ∀ g ∈ fs₁, g n = Action.Continue) :
    FilterChain.filter (fs₁ ++ fs₂) n = FilterChain.filter fs₂ n := by
  induction fs₁ with
  | nil => rfl
  | cons f rest ih =>
    rw [List.cons_append, FilterChain.filter, h f (List.mem_cons_self _ _)]
    exact ih (fun g hg => h g (List.mem_cons_of_mem _ hg))

/-- The `chain_filters` fold, started from any accumulated action, matches
the `FilterChain` recursion when the accumulator is still `Continue` and is
frozen otherwise. -/
theorem chain_filters_foldl (n : Node) (subs : List TreeFilter) (a : Action) :
    List.foldl (fun action sub => if action = Action.Continue then sub n else action) a subs
      = if a = Action.Continue then FilterChain.filter subs n else a := by
  induction subs generalizing a with
  | nil => cases a <;> simp [FilterChain.filter]
  | cons f rest ih =>
    rw [List.foldl_cons, ih]
    cases a with
    | Continue =>
      simp only [if_pos rfl]
      rw [FilterChain.filter]
      cases h : f n <;> simp [h]
    | Detach => simp
    | Fold => simp

end Marked

namespace Marked

/-! ## Model validation against the pinned test strings -/

/-- The modelled full parse of the strike document serializes to the
skeleton the test suite pins before any filtering. -/
theorem strikeDoc_serializes :
    strikeDoc.to_string
      = "<html><head></head><body><div>foo <strike><i>bar</i>s</strike> baz</div></body></html>" := rfl

/-- The modelled `test_xmp` fragment serializes to the pinned string. -/
theorem xmpDoc_serializes :
    xmpDoc.to_string = "<div>foo <xmp><i>bar</i></xmp> baz</div>" := rfl

/-- The modelled `test_empty_tag` fragment serializes to the pinned string. -/
theorem wbrDoc_serializes :
    wbrDoc.to_string = "<div>plain<wbr>text</div>" := rfl

/-- The modelled `test_shallow_fragment` fragment serializes to the pinned
string. -/
theorem shallowDoc_serializes :
    shallowDoc.to_string = "<div><b>b</b> text <i>i</i></div>" := rfl

/-! ## Claims -/

/-- C1: parsing `<div>foo <strike><i>bar</i>s</strike> baz</div>` and then
running `Document::filter` with `StrikeFoldFilter` (Fold on `strike`
elements, Continue on every other node) produces a document whose
serialization contains body `<div>foo <i>bar</i>s baz</div>`: the folded
node's children are spliced into its former position in order and the
folded node itself is discarded. -/
theorem fold_filter_splices_children :
    (strikeDoc.filter StrikeFoldFilter).to_string
      = "<html><head></head><body>" ++ "<div>foo <i>bar</i>s baz</div>" ++ "</body></html>" := rfl

/-- C2: parsing the same document and running `Document::filter` with
`StrikeRemoveFilter` (Detach on `strike`, Continue otherwise) produces body
`<div>foo  baz</div>` with exactly two consecutive spaces: the detached
element's whole subtree is removed and the surrounding text nodes are left
byte-for-byte untouched. -/
theorem remove_filter_detaches_subtree :
    (strikeDoc.filter StrikeRemoveFilter).to_string
      = "<html><head></head><body>" ++ "<div>foo  baz</div>" ++ "</body></html>" := rfl

/-- C3: a composed chain evaluates the sub-filters in the given order:
it returns `Continue` exactly when every sub-filter returned `Continue`;
when the sub-filters before `f` all return `Continue` and `f` does not, the
chain returns `f`'s action, independently of the sub-filters after `f`
(which are therefore never consulted); and the `chain_filters` macro
composition agrees with the `FilterChain` semantics. -/
theorem filter_chain_stops_at_first_action (n : Node) :
    (∀ fs : List TreeFilter,
        (FilterChain.filter fs n = Action.Continue ↔ ∀ f ∈ fs, f n = Action.Continue)) ∧
    (∀ (fs₁ : List TreeFilter) (f : TreeFilter) (fs₂ : List TreeFilter),
        (∀ g ∈ fs₁, g n = Action.Continue) → f n ≠ Action.Continue →
        FilterChain.filter (fs₁ ++ f :: fs₂) n = f n) ∧
    (∀ (first : TreeFilter) (subs : List TreeFilter),
        chain_filters first subs n = FilterChain.filter (first :: subs) n) := by
  refine ⟨?_, ?_, ?_⟩
  · intro fs
    induction fs with
    | nil => simp [FilterChain.filter]
    | cons f rest ih =>
      rw [FilterChain.filter]
      cases h : f n with
      | Continue => simp [ih, h]
      | Detach => simp [h]
      | Fold => simp [h]
  · intro fs₁ f fs₂ h hf
    rw [FilterChain.filter_append fs₁ (f :: fs₂) n h, FilterChain.filter]
    cases hfn : f n with
    | Continue => exact absurd hfn hf
    | Detach => rfl
    | Fold => rfl
  · intro first subs
    rw [chain_filters, chain_filters_foldl n subs (first n), FilterChain.filter]
    cases h : first n <;> simp [h]

/-- C3 witness: in the chain `[keepAll, detachAll, foldAll]` the first
sub-filter returns `Continue` and the second returns `Detach`, so the chain
returns `Detach` without consulting the third. -/
theorem filter_chain_stops_at_first_action_witness :
    FilterChain.filter ([keepAll] ++ detachAll :: [foldAll]) (txt "w") = Action.Detach :=
  (filter_chain_stops_at_first_action (txt "w")).2.1 [keepAll] detachAll [foldAll]
    (by intro g hg; rw [List.mem_singleton] at hg; subst hg; rfl)
    (by decide)

/-- C4: for every predicate and node, the nodes yielded by the shallow
query `filter` (direct children only, in sibling order) are a subset of the
nodes yielded by the recursive query `filter_r` started at the same node. -/
theorem shallow_filter_subset_recursive (p : Node → Bool) (n : Node) :
    n.filter p ⊆ n.filter_r p := by
  intro x hx
  rw [Node.filter, List.mem_filter] at hx
  rw [Node.filter_r, List.mem_filter]
  exact ⟨children_subset_descendants n hx.1, hx.2⟩

/-- C4 witness: the shallow `xmp` matches under the `test_xmp` root are
among the recursive matches. -/
theorem shallow_filter_subset_recursive_witness :
    Node.filter xmpRoot isXmp ⊆ Node.filter_r xmpRoot isXmp :=
  shallow_filter_subset_recursive isXmp xmpRoot

/-- C5: for every node `x`, the serialization of `deep_clone(x)` equals the
serialization of the subtree rooted at `x`; the clone is a brand-new
document value, so no tree links are shared with the source and mutating
one cannot change the other's serialization. -/
theorem deep_clone_preserves_serialization (doc : Document) (x : Node) :
    (doc.deep_clone x).to_string = nodeToString false x := by
  show nodeToString false x.deep_clone ++ "" = nodeToString false x
  rw [Node.deep_clone_eq x, String.append_empty]

/-- C5 witness: cloning the `test_xmp` root element reproduces the
serialization of that subtree. -/
theorem deep_clone_preserves_serialization_witness :
    (xmpDoc.deep_clone xmpRoot).to_string = nodeToString false xmpRoot :=
  deep_clone_preserves_serialization xmpDoc xmpRoot

/-- C6: serialization escapes `<`, `&` and the non-breaking space in text
content even though the in-memory value holds decoded characters, and the
fragment parse of `plain &lt; text` serializes back to
`<div>plain &lt; text</div>`. -/
theorem text_serialization_escapes :
    textFragmentDoc.to_string = "<div>plain &lt; text</div>" ∧
    escapeText "<" = "&lt;" ∧ escapeText "&" = "&amp;" ∧ escapeText " " = "&nbsp;" :=
  ⟨rfl, rfl, rfl, rfl⟩

/-- C7: the serializer always emits an explicit closing tag for raw-text
elements: the `test_plaintext` fragment serializes to
`<div><plaintext><i>bar baz</div></plaintext></div>` (reproducing the
parse/serialize mismatch), and in general every non-void raw-text element
is rendered with its children unescaped followed by `</tag>`. -/
theorem raw_text_closing_tag (tag : String) (attrs : List Attribute) (cs : List Node)
    (hv : voidElements.contains tag = false)
    (hr : rawTextElements.contains tag = true) :
    plaintextDoc.to_string = "<div><plaintext><i>bar baz</div></plaintext></div>" ∧
    nodeToString false (Node.element ⟨⟨"", tag⟩, attrs⟩ cs)
      = "<" ++ tag ++ attrsToString attrs ++ ">" ++
          nodesToString true cs ++ "</" ++ tag ++ ">" := by
  refine ⟨rfl, ?_⟩
  rw [nodeToString]
  simp only [hv, hr, Bool.false_eq_true, if_false]

/-- C7 witness: the raw-text element `xmp` with one text child is closed
explicitly and its content is not escaped. -/
theorem raw_text_closing_tag_witness :
    plaintextDoc.to_string = "<div><plaintext><i>bar baz</div></plaintext></div>" ∧
    nodeToString false (Node.element ⟨⟨"", "xmp"⟩, []⟩ [txt "<z>"])
      = "<" ++ "xmp" ++ attrsToString [] ++ ">" ++
          nodesToString true [txt "<z>"] ++ "</" ++ "xmp" ++ ">" :=
  raw_text_closing_tag "xmp" [] [txt "<z>"] rfl rfl

/-- C9: `get_or_create` is idempotent after the first successful
initialization: when the pointer is set to `v`, every later call returns
that same shared value without invoking the initializer and leaves the
state unchanged; when uninitialized, a successful initializer stores and
returns its value; a failing initializer propagates the error and leaves
the singleton uninitialized, and whenever the singleton is uninitialized
the initializer is invoked, so failure is not cached; `drop` resets the
pointer. -/
theorem lazy_arc_get_or_create_spec {T E : Type} (s : LazyArc T) (f : Unit → Except E T) :
    (∀ v : T, s.ptr = some v → s.get_or_create f = (Except.ok v, s, false)) ∧
    (s.ptr = none → ∀ v : T, f () = Except.ok v →
        s.get_or_create f = (Except.ok v, ⟨some v⟩, true)) ∧
    (s.ptr = none → ∀ e : E, f () = Except.error e →
        s.get_or_create f = (Except.error e, ⟨none⟩, true)) ∧
    (s.ptr = none → (s.get_or_create f).2.2 = true) ∧
    LazyArc.drop s = (⟨none⟩ : LazyArc T) := by
  obtain ⟨p⟩ := s
  refine ⟨?_, ?_, ?_, ?_, rfl⟩
  · intro v hv
    cases p with
    | some w =>
      obtain rfl : w = v := by simpa using hv
      rfl
    | none => simp at hv
  · intro hp v hf
    cases p with
    | some w => simp at hp
    | none =>
      show (match f () with
        | Except.ok v => (Except.ok v, (⟨some v⟩ : LazyArc T), true)
        | Except.error e => (Except.error e, (⟨none⟩ : LazyArc T), true)) = _
      rw [hf]
  · intro hp e hf
    cases p with
    | some w => simp at hp
    | none =>
      show (match f () with
        | Except.ok v => (Except.ok v, (⟨some v⟩ : LazyArc T), true)
        | Except.error e => (Except.error e, (⟨none⟩ : LazyArc T), true)) = _
      rw [hf]
  · intro hp
    cases p with
    | some w => simp at hp
    | none =>
      show (match f () with
        | Except.ok v => (Except.ok v, (⟨some v⟩ : LazyArc T), true)
        | Except.error e => (Except.error e, (⟨none⟩ : LazyArc T), true)).2.2 = true
      cases f () <;> rfl

/-- C9 witness: with the pointer already set to 7, a call with a failing
initializer still returns 7 without invoking it; with the pointer unset,
the failing initializer is invoked, its error is returned, and the
singleton stays uninitialized. -/
theorem lazy_arc_get_or_create_spec_witness :
    (⟨some 7⟩ : LazyArc Nat).get_or_create failInit
        = (Except.ok 7, (⟨some 7⟩ : LazyArc Nat), false) ∧
    (⟨none⟩ : LazyArc Nat).get_or_create failInit
        = (Except.error "boom", (⟨none⟩ : LazyArc Nat), true) :=
  ⟨(lazy_arc_get_or_create_spec ⟨some 7⟩ failInit).1 7 rfl,
   (lazy_arc_get_or_create_spec ⟨none⟩ failInit).2.2.1 rfl "boom" rfl⟩

/-- C10: `deep_clone` neither adds nor drops nodes: for every document and
start node the clone's live node count excluding the sentinel equals the
size of the cloned subtree; concretely the clones of the `test_xmp`,
`test_empty_tag` and `test_shallow_fragment` root elements have 5, 4 and 6
non-sentinel nodes. -/
theorem deep_clone_preserves_node_count (doc : Document) (x : Node) :
    (doc.deep_clone x).nodesCount = x.size + 1 ∧
    xmpDoc.root_element = some xmpRoot ∧
    (xmpDoc.deep_clone xmpRoot).nodesCount - 1 = 5 ∧
    wbrDoc.root_element = some wbrRoot ∧
    (wbrDoc.deep_clone wbrRoot).nodesCount - 1 = 4 ∧
    shallowDoc.root_element = some shallowRoot ∧
    (shallowDoc.deep_clone shallowRoot).nodesCount - 1 = 6 := by
  refine ⟨?_, rfl, rfl, rfl, rfl, rfl, rfl⟩
  show 1 + (x.deep_clone.size + 0) = x.size + 1
  rw [Node.deep_clone_eq x]
  omega

end Marked
